import Mathlib

/-!
Verification of the PHY 3902 DAC data-acquisition sketch (the richest
variant: the experiment with mean/stddev statistics and error propagation).

Floating-point values of the C++ source are modelled as real numbers with
exact arithmetic; `sqrt`/`pow` become `Real.sqrt` and `(· ^ ·)`.  The
DAC-code computation, which the source truncates to `int`, is modelled over
`ℚ` so that it is executable.  Serial output is modelled as a token-level
line machine.
-/

set_option maxHeartbeats 1000000

namespace DacExp

noncomputable section

/-- Statistics of one sampled channel; mirrors `struct AnalogStats`. -/
structure AnalogStats where
  mean : ℝ
  stddev : ℝ

/-- Difference of two channels with its propagated error; mirrors `struct DiffStats`. -/
structure DiffStats where
  diff : ℝ
  error : ℝ

/-- Constant `RESISTOR = 218.3` (ohms). -/
def RESISTOR : ℝ := 218.3

/-- Constant `RESISTOR_TOLERANCE = 0.005`. -/
def RESISTOR_TOLERANCE : ℝ := 0.005

/-- Mirrors `float_map(value, fromLow, fromHigh, toLow, toHigh)`:
`toLow + ((value - fromLow) * (toHigh - toLow)) / (fromHigh - fromLow)`.
Stated over any field so the same definition serves the real-valued
sampler and the rational-valued DAC-code computation. -/
def float_map {α : Type} [Field α] (value fromLow fromHigh toLow toHigh : α) : α :=
  toLow + ((value - fromLow) * (toHigh - toLow)) / (fromHigh - fromLow)

/-- Mirrors `propagate_addition_stddev(a, b, stddev_a, stddev_b)`:
`sqrt(pow(a,2)*pow(stddev_a,2) + pow(b,2)*pow(stddev_b,2))`. -/
def propagate_addition_stddev (a b stddev_a stddev_b : ℝ) : ℝ :=
  Real.sqrt (a ^ 2 * stddev_a ^ 2 + b ^ 2 * stddev_b ^ 2)

/-- Mirrors `calcDiffStats(a, b)`. -/
def calcDiffStats (a b : AnalogStats) : DiffStats :=
  { diff := a.mean - b.mean
    error := propagate_addition_stddev a.mean b.mean a.stddev b.stddev }

/-- Mirrors `float current = (a0_a1.diff / RESISTOR) * 1000` in `acquireAndPrintData`. -/
def currentOf (d : ℝ) : ℝ := d / RESISTOR * 1000

/-- Mirrors `currentError = current * sqrt(pow(dV / a0_a1.diff, 2) + pow(dR / RESISTOR, 2))`
with `dV = a0_a1.error` and `dR = RESISTOR * RESISTOR_TOLERANCE`. -/
def currentErrorOf (d e : ℝ) : ℝ :=
  currentOf d * Real.sqrt ((e / d) ^ 2 + (RESISTOR * RESISTOR_TOLERANCE / RESISTOR) ^ 2)

/-- Body of the sampling loop of `readAnalogToVoltage`:
`values[i] = analogRead(pin); total += values[i]` on the pair
`(values, total)`.  The raw readings are supplied by the stream
`readings` (the `analogRead` primitive is an external collaborator
returning an integer in `[0, 1023]`). -/
def sampStep (readings : ℕ → ℕ) (p : List ℝ × ℝ) (i : ℕ) : List ℝ × ℝ :=
  (p.1.set i ((readings i : ℕ) : ℝ), p.2 + ((readings i : ℕ) : ℝ))

/-- Body of the variance loop of `readAnalogToVoltage`:
`variance += (values[i] - mean) * (values[i] - mean)`. -/
def varStep (values : List ℝ) (mean acc : ℝ) (i : ℕ) : ℝ :=
  acc + (values.getD i 0 - mean) * (values.getD i 0 - mean)

/-- Mirrors `readAnalogToVoltage(pin, samples)`: fill the fixed 20-element
buffer `float values[20]` with `samples` raw readings while accumulating
their total, take `mean = total / samples`, accumulate the sum of squared
deviations, divide by `samples` (population variance), take the square
root, and map mean and stddev through `float_map(_, 0, 1023, 0, 5.0)`. -/
def readAnalogToVoltage (readings : ℕ → ℕ) (samples : ℕ) : AnalogStats :=
  let acc := (List.range samples).foldl (sampStep readings) (List.replicate 20 0, 0)
  let mean := acc.2 / samples
  let variance := ((List.range samples).foldl (varStep acc.1 mean) 0) / samples
  { mean := float_map mean 0 1023 0 5
    stddev := float_map (Real.sqrt variance) 0 1023 0 5 }

/-- Option-indexed write into the fixed sample buffer: `none` exactly when
the index falls outside the buffer. -/
def bufSet (l : List ℝ) (i : ℕ) (v : ℝ) : Option (List ℝ) :=
  if i < l.length then some (l.set i v) else none

/-- Option-indexed read from the fixed sample buffer. -/
def bufGet (l : List ℝ) (i : ℕ) : Option ℝ := l[i]?

/-- Sampling-loop body with the Option-indexed buffer write. -/
def sampStepChecked (readings : ℕ → ℕ) (p : List ℝ × ℝ) (i : ℕ) : Option (List ℝ × ℝ) :=
  (bufSet p.1 i ((readings i : ℕ) : ℝ)).map fun l => (l, p.2 + ((readings i : ℕ) : ℝ))

/-- Variance-loop body with the Option-indexed buffer read. -/
def varStepChecked (values : List ℝ) (mean acc : ℝ) (i : ℕ) : Option ℝ :=
  (bufGet values i).map fun x => acc + (x - mean) * (x - mean)

/-- The sampler of `readAnalogToVoltage` with every access to the
20-element buffer routed through the Option-indexed operations: the result
is `none` exactly when some access is out of range. -/
def readAnalogToVoltageChecked (readings : ℕ → ℕ) (samples : ℕ) : Option AnalogStats := do
  let acc ← (List.range samples).foldlM (sampStepChecked readings) (List.replicate 20 0, 0)
  let mean := acc.2 / samples
  let variance0 ← (List.range samples).foldlM (varStepChecked acc.1 mean) 0
  let variance := variance0 / samples
  pure { mean := float_map mean 0 1023 0 5
         stddev := float_map (Real.sqrt variance) 0 1023 0 5 }

/-- One non-finite-tracking value of the current-error computation: `none`
stands for an IEEE non-finite float (infinity or NaN), `some x` for the
finite value `x`.  Division by zero produces a non-finite value and every
arithmetic operation propagates non-finiteness, which is all the claim
about the zero-difference degeneracy needs. -/
def fdiv : Option ℝ → Option ℝ → Option ℝ
  | some a, some b => if b = 0 then none else some (a / b)
  | _, _ => none

/-- Multiplication on non-finite-tracking values (both operands finite, else non-finite). -/
def fmul : Option ℝ → Option ℝ → Option ℝ
  | some a, some b => some (a * b)
  | _, _ => none

/-- Addition on non-finite-tracking values. -/
def fadd : Option ℝ → Option ℝ → Option ℝ
  | some a, some b => some (a + b)
  | _, _ => none

/-- Squaring on non-finite-tracking values, mirroring `pow(x, 2)`. -/
def fpow2 : Option ℝ → Option ℝ
  | some a => some (a ^ 2)
  | none => none

/-- Square root on non-finite-tracking values (`sqrt` of a negative is NaN). -/
def fsqrt : Option ℝ → Option ℝ
  | some a => if 0 ≤ a then some (Real.sqrt a) else none
  | none => none

/-- The `currentError` expression of `acquireAndPrintData`, evaluated in the
non-finite-tracking semantics:
`current * sqrt(pow(dV / a0_a1.diff, 2) + pow(dR / RESISTOR, 2))`. -/
def currentErrorChecked (d e : ℝ) : Option ℝ :=
  fmul (some (currentOf d))
    (fsqrt (fadd (fpow2 (fdiv (some e) (some d)))
                 (fpow2 (fdiv (some (RESISTOR * RESISTOR_TOLERANCE)) (some RESISTOR)))))

/-- C++ `float`-to-`int` conversion (truncation toward zero), on exact
rationals.  Every value it is applied to in this sketch is nonnegative, so
it coincides with the floor there. -/
def cppTrunc (x : ℚ) : ℤ := if 0 ≤ x then ⌊x⌋ else ⌈x⌉

/-- Mirrors `int outputSignal = float_map(step, 0, 51, 0, 4095)` of
`setDACVoltageByStep`: the linear map evaluated at the step index,
truncated to `int`.  (The float evaluation of `step * 4095 / 51` is within
`2^-20` of the exact rational value, whose distance to the nearest integer
is at least `1/51`, so the float truncation equals the exact one.) -/
def dacCodeOf (step : ℕ) : ℤ := cppTrunc (float_map (step : ℚ) 0 51 0 4095)

/-- One serial-output token: a plain string fragment, a float printed with
an explicit decimal precision (`Serial.print(value, precision)`), or a
float converted through `String(value)`, whose Arduino default is 2
decimal places (a distinct formatting path from the explicit-precision
one). -/
inductive Tok where
  | str (s : String)
  | num (v : ℝ) (prec : ℕ)
  | numDefault (v : ℝ)

/-- Observable state of one run: completed output lines, the pending
(unterminated) line, the sequence of DAC codes commanded, the number of
raw ADC readings consumed, and the `hasRun` latch. -/
@[ext] structure SerialState where
  lines : List (List Tok)
  pend : List Tok
  dacWrites : List ℤ
  rdIdx : ℕ
  hasRun : Bool

/-- Mirrors `Serial.print(...)`: appends a token to the pending line. -/
def sPrint (t : Tok) (s : SerialState) : SerialState :=
  { s with pend := s.pend ++ [t] }

/-- Mirrors `Serial.println()`: terminates the pending line. -/
def sNewline (s : SerialState) : SerialState :=
  { s with lines := s.lines ++ [s.pend], pend := [] }

/-- Mirrors `Serial.println(x)`. -/
def sPrintln (t : Tok) (s : SerialState) : SerialState :=
  sNewline (sPrint t s)

/-- Mirrors the templated `printSerialCSV(value, eol, precision)` of the
statistics variant: `Serial.println(value, precision)` at end of line,
otherwise `Serial.print(value, precision); Serial.print(",")`. -/
def printSerialCSVm (v : ℝ) (eol : Bool) (prec : ℕ) (s : SerialState) : SerialState :=
  if eol then sPrintln (Tok.num v prec) s
  else sPrint (Tok.str ",") (sPrint (Tok.num v prec) s)

/-- Mirrors `printDataCSVRow`: `Serial.print(String(outputVoltage) + ",")`
(default `String(float)` conversion, decomposed into the value token and
the comma), then eleven `printSerialCSV(value)` calls at the default
precision 4, then `printSerialCSV(currentError, true)`. -/
def printDataCSVRowm (outputVoltage : ℝ) (a0 a1 a2 : AnalogStats)
    (a0_a1 a1_a2 : DiffStats) (current currentError : ℝ)
    (s : SerialState) : SerialState :=
  let s := sPrint (Tok.str ",") (sPrint (Tok.numDefault outputVoltage) s)
  let s := printSerialCSVm a0.mean false 4 s
  let s := printSerialCSVm a0.stddev false 4 s
  let s := printSerialCSVm a1.mean false 4 s
  let s := printSerialCSVm a1.stddev false 4 s
  let s := printSerialCSVm a2.mean false 4 s
  let s := printSerialCSVm a2.stddev false 4 s
  let s := printSerialCSVm a0_a1.diff false 4 s
  let s := printSerialCSVm a0_a1.error false 4 s
  let s := printSerialCSVm a1_a2.diff false 4 s
  let s := printSerialCSVm a1_a2.error false 4 s
  let s := printSerialCSVm current false 4 s
  printSerialCSVm currentError true 4 s

/-- The token sequence of one data row of `printDataCSVRow`. -/
def rowTokens (outputVoltage : ℝ) (a0 a1 a2 : AnalogStats)
    (a0_a1 a1_a2 : DiffStats) (current currentError : ℝ) : List Tok :=
  [Tok.numDefault outputVoltage, Tok.str ",",
   Tok.num a0.mean 4, Tok.str ",", Tok.num a0.stddev 4, Tok.str ",",
   Tok.num a1.mean 4, Tok.str ",", Tok.num a1.stddev 4, Tok.str ",",
   Tok.num a2.mean 4, Tok.str ",", Tok.num a2.stddev 4, Tok.str ",",
   Tok.num a0_a1.diff 4, Tok.str ",", Tok.num a0_a1.error 4, Tok.str ",",
   Tok.num a1_a2.diff 4, Tok.str ",", Tok.num a1_a2.error 4, Tok.str ",",
   Tok.num current 4, Tok.str ",", Tok.num currentError 4]

/-- Mirrors `setDACVoltageByStep(step)`: commands the DAC code for the step. -/
def setDACVoltageByStepm (step : ℕ) (s : SerialState) : SerialState :=
  { s with dacWrites := s.dacWrites ++ [dacCodeOf step] }

/-- One `readAnalogToVoltage(pin)` call at the default 10 samples: the 10
raw readings are the next 10 entries of the global reading stream `env`
(readings are consumed in call order; the pin argument selects the
physical channel, which the stream already accounts for). -/
def readChanm (env : ℕ → ℕ) (s : SerialState) : AnalogStats × SerialState :=
  (readAnalogToVoltage (fun k => env (s.rdIdx + k)) 10, { s with rdIdx := s.rdIdx + 10 })

/-- Mirrors `acquireAndPrintData(step)`: set the DAC, read A0/A1/A2,
combine differences, estimate the current and its error, and print the
CSV row.  The two `delay(50)` calls consume wall-clock time only and are
not modelled. -/
def acquireAndPrintDatam (env : ℕ → ℕ) (step : ℕ) (s : SerialState) : SerialState :=
  let outputVoltage : ℝ := (step : ℝ) / 10
  let s := setDACVoltageByStepm step s
  let p0 := readChanm env s
  let p1 := readChanm env p0.2
  let p2 := readChanm env p1.2
  let a0_a1 := calcDiffStats p0.1 p1.1
  let a1_a2 := calcDiffStats p1.1 p2.1
  let current := currentOf a0_a1.diff
  let currentError := currentErrorOf a0_a1.diff a0_a1.error
  printDataCSVRowm outputVoltage p0.1 p1.1 p2.1 a0_a1 a1_a2 current currentError p2.2

/-- Mirrors `for (int i = 0; i < 35; i++) Serial.print("-")`. -/
def dashLoop (n : ℕ) (s : SerialState) : SerialState :=
  (List.range n).foldl (fun st _ => sPrint (Tok.str "-") st) s

/-- The 35-dash separator line. -/
def sepLine : List Tok := List.replicate 35 (Tok.str "-")

/-- The device-identification line. -/
def devLine : List Tok := [Tok.str "DAC mounted to 0x62"]

/-- The announcement line printed by `printHeader`. -/
def infoLine : List Tok := [Tok.str "Outputting voltage series."]

/-- The column-header line printed by `printHeader`. -/
def colsLine : List Tok :=
  [Tok.str "out,A0,dA0,A1,dA1,A2,dA2,A0-A1,d(A0-A1),A1-A2,d(A1-A2),current (mA),d(current (mA))"]

/-- The completion line. -/
def finLine : List Tok := [Tok.str "Finished"]

/-- Mirrors `printHeader()`. -/
def printHeaderm (s : SerialState) : SerialState :=
  let s := sNewline (dashLoop 35 s)
  let s := sPrintln (Tok.str "DAC mounted to 0x62") s
  let s := sPrintln (Tok.str "Outputting voltage series.") s
  sPrintln (Tok.str "out,A0,dA0,A1,dA1,A2,dA2,A0-A1,d(A0-A1),A1-A2,d(A1-A2),current (mA),d(current (mA))") s

/-- Mirrors `setup()` (the `Serial.begin`/`dac.begin` peripheral
initialisations produce no observable output and command no DAC code). -/
def setupm (s : SerialState) : SerialState :=
  let s := sNewline (dashLoop 35 s)
  sPrintln (Tok.str "DAC mounted to 0x62") s

/-- Mirrors `loop()`: a no-op once `hasRun` is set, otherwise header, the
51-step ramp, the completion line, and the latch. -/
def loopm (env : ℕ → ℕ) (s : SerialState) : SerialState :=
  if s.hasRun then s
  else
    let s := printHeaderm s
    let s := (List.range 51).foldl (fun st i => acquireAndPrintDatam env i st) s
    let s := sPrintln (Tok.str "Finished") s
    { s with hasRun := true }

/-- Power-up state. -/
def initState : SerialState :=
  { lines := [], pend := [], dacWrites := [], rdIdx := 0, hasRun := false }

/-- One full run: `setup()` followed by the first `loop()` invocation. -/
def fullRun (env : ℕ → ℕ) : SerialState := loopm env (setupm initState)

/-- The expected data row of step `i` when the reading stream has been
consumed up to position `r`. -/
def stepRow (env : ℕ → ℕ) (r : ℕ) (i : ℕ) : List Tok :=
  let a0 := readAnalogToVoltage (fun k => env (r + k)) 10
  let a1 := readAnalogToVoltage (fun k => env (r + 10 + k)) 10
  let a2 := readAnalogToVoltage (fun k => env (r + 20 + k)) 10
  let a0_a1 := calcDiffStats a0 a1
  let a1_a2 := calcDiffStats a1 a2
  rowTokens ((i : ℝ) / 10) a0 a1 a2 a0_a1 a1_a2
    (currentOf a0_a1.diff) (currentErrorOf a0_a1.diff a0_a1.error)

/-- The expected data rows for a list of step indices, threading the
reading-stream position (30 readings per step). -/
def rowsFrom (env : ℕ → ℕ) : ℕ → List ℕ → List (List Tok)
  | _, [] => []
  | r, i :: l => stepRow env r i :: rowsFrom env (r + 30) l

/-- Token recogniser for the comma separator. -/
def isComma : Tok → Bool
  | Tok.str s => s == ","
  | _ => false

/-- Splits a line into its comma-separated fields. -/
def splitFields : List Tok → List (List Tok)
  | [] => [[]]
  | t :: ts =>
    match splitFields ts with
    | [] => [[]]
    | f :: fs => if isComma t then [] :: f :: fs else (t :: f) :: fs

/-- Token recogniser for a dash fragment. -/
def isDash : Tok → Bool
  | Tok.str s => s == "-"
  | _ => false

/-- Line recogniser for the 35-dash separator line. -/
def isSepLine (l : List Tok) : Bool := l.length == 35 && l.all isDash

/-- A token counts as precision-4 formatted exactly when it is a numeric
token emitted through the explicit-precision path with precision 4;
string fragments are not numeric fields.  A `numDefault` token went
through `String(float)`, which formats with 2 decimal places, not 4. -/
def tokPrec4 : Tok → Bool
  | Tok.num _ p => p == 4
  | Tok.numDefault _ => false
  | Tok.str _ => true

end

end DacExp

namespace DacExp

/-- C1: the Difference-with-Error Combiner returns difference `a.mean - b.mean`
and error `sqrt(a.mean^2*a.stddev^2 + b.mean^2*b.stddev^2)` (the non-subtractive
formula preserved verbatim from the source); at `a = (2.5, 0.01)`,
`b = (2.0, 0.01)` it returns difference `0.5` and error `sqrt(0.000625+0.0004)`,
and for identical statistics the difference is `0`. -/
theorem calcDiffStats_spec :
    (∀ a b : AnalogStats,
        (calcDiffStats a b).diff = a.mean - b.mean ∧
        (calcDiffStats a b).error
          = Real.sqrt (a.mean ^ 2 * a.stddev ^ 2 + b.mean ^ 2 * b.stddev ^ 2)) ∧
    (calcDiffStats ⟨2.5, 0.01⟩ ⟨2.0, 0.01⟩).diff = 0.5 ∧
    (calcDiffStats ⟨2.5, 0.01⟩ ⟨2.0, 0.01⟩).error = Real.sqrt (0.000625 + 0.0004) ∧
    (∀ a : AnalogStats, (calcDiffStats a a).diff = 0) := by
  refine ⟨fun a b => ⟨rfl, rfl⟩, by norm_num [calcDiffStats], ?_, fun a => sub_self _⟩
  show Real.sqrt ((2.5 : ℝ) ^ 2 * 0.01 ^ 2 + 2.0 ^ 2 * 0.01 ^ 2) = _
  norm_num

/-- C2: the Current Estimator computes `current = (d / RESISTOR) * 1000`
milliamps and `currentError = current * sqrt((e/d)^2 + ((RESISTOR*tol)/RESISTOR)^2)`;
with `d = 1.0`, `e = 0.02` this gives `current = (1/218.3)*1000 = 4.5808...` mA
(strictly between 4.5808 and 4.5809) and `currentError ≈ 0.0944` mA (strictly
between 0.0944 and 0.0945). -/
theorem currentEstimator_spec :
    (∀ d e : ℝ,
        currentOf d = d / RESISTOR * 1000 ∧
        currentErrorOf d e
          = currentOf d * Real.sqrt ((e / d) ^ 2 + (RESISTOR * RESISTOR_TOLERANCE / RESISTOR) ^ 2)) ∧
    currentOf 1 = 1 / 218.3 * 1000 ∧
    (4.5808 < currentOf 1 ∧ currentOf 1 < 4.5809) ∧
    (0.0944 < currentErrorOf 1 0.02 ∧ currentErrorOf 1 0.02 < 0.0945) := by
  have hcur : currentOf 1 = 1 / 218.3 * 1000 := by norm_num [currentOf, RESISTOR]
  have harg : ((0.02 : ℝ) / 1) ^ 2 + (RESISTOR * RESISTOR_TOLERANCE / RESISTOR) ^ 2
      = 0.000425 := by norm_num [RESISTOR, RESISTOR_TOLERANCE]
  have herr : currentErrorOf 1 0.02 = currentOf 1 * Real.sqrt 0.000425 := by
    rw [currentErrorOf, harg]
  have hs_ub : Real.sqrt 0.000425 < 0.02062 := by
    rw [Real.sqrt_lt' (by norm_num)]
    norm_num
  have hs_lb : (0.02061 : ℝ) < Real.sqrt 0.000425 := by
    rw [Real.lt_sqrt (by norm_num)]
    norm_num
  refine ⟨fun d e => ⟨rfl, rfl⟩, hcur, ⟨?_, ?_⟩, ?_, ?_⟩
  · rw [hcur]; norm_num
  · rw [hcur]; norm_num
  · calc (0.0944 : ℝ) < 1 / 218.3 * 1000 * 0.02061 := by norm_num
      _ < currentOf 1 * Real.sqrt 0.000425 := by
          rw [hcur]
          exact mul_lt_mul_of_pos_left hs_lb (by norm_num)
      _ = currentErrorOf 1 0.02 := herr.symm
  · calc currentErrorOf 1 0.02 = currentOf 1 * Real.sqrt 0.000425 := herr
      _ < 1 / 218.3 * 1000 * 0.02062 := by
          rw [hcur]
          exact mul_lt_mul_of_pos_left hs_ub (by norm_num)
      _ < 0.0945 := by norm_num

/-- C8: the Range Mapper is exact-inverse-consistent over exact arithmetic:
`float_map (float_map x a b c d) c d a b = x` whenever `b ≠ a` and `d ≠ c`. -/
theorem float_map_roundtrip (x a b c d : ℝ) (hba : b ≠ a) (hdc : d ≠ c) :
    float_map (float_map x a b c d) c d a b = x := by
  have h1 : b - a ≠ 0 := sub_ne_zero.mpr hba
  have h2 : d - c ≠ 0 := sub_ne_zero.mpr hdc
  unfold float_map
  field_simp
  ring

/-- Witness for C8 at the concrete ADC range `[0,1023] → [0,5]` and `x = 7`. -/
theorem float_map_roundtrip_witness :
    float_map (float_map (7 : ℝ) 0 1023 0 5) 0 5 0 1023 = 7 :=
  float_map_roundtrip 7 0 1023 0 5 (by norm_num) (by norm_num)

theorem sampFold_length (readings : ℕ → ℕ) :
    ∀ (l : List ℕ) (p : List ℝ × ℝ),
      ((l.foldl (sampStep readings) p).1).length = p.1.length := by
  intro l
  induction l with
  | nil => intro p; rfl
  | cons i l ih =>
      intro p
      simp only [List.foldl_cons, ih, sampStep, List.length_set]

theorem sampFold_total (readings : ℕ → ℕ) :
    ∀ n : ℕ,
      ((List.range n).foldl (sampStep readings) (List.replicate 20 0, 0)).2
        = ∑ i ∈ Finset.range n, ((readings i : ℕ) : ℝ) := by
  intro n
  induction n with
  | zero => simp
  | succ n ih =>
      rw [List.range_succ, List.foldl_append, Finset.sum_range_succ, ← ih]
      simp [sampStep]

theorem sampFold_getD (readings : ℕ → ℕ) :
    ∀ n : ℕ, n ≤ 20 → ∀ i : ℕ, i < n →
      (((List.range n).foldl (sampStep readings) (List.replicate 20 0, 0)).1).getD i 0
        = readings i := by
  intro n
  induction n with
  | zero => intro _ i hi; omega
  | succ n ih =>
      intro hn i hi
      rw [List.range_succ, List.foldl_append]
      have hlen :
          (((List.range n).foldl (sampStep readings) (List.replicate 20 0, 0)).1).length
            = 20 := by
        rw [sampFold_length]; simp
      rcases Nat.lt_succ_iff_lt_or_eq.mp hi with hi' | hi'
      · have hne : n ≠ i := by omega
        simp only [List.foldl_cons, List.foldl_nil, sampStep,
          List.getD_eq_getElem?_getD, List.getElem?_set_ne hne]
        rw [← List.getD_eq_getElem?_getD]
        exact ih (by omega) i hi'
      · rw [hi']
        have hn20 :
            n < (((List.range n).foldl (sampStep readings)
                (List.replicate 20 0, 0)).1).length := by
          rw [hlen]; omega
        simp only [List.foldl_cons, List.foldl_nil, sampStep,
          List.getD_eq_getElem?_getD, List.getElem?_set_self hn20, Option.getD_some]

theorem varFold_sum (values : List ℝ) (mean : ℝ) :
    ∀ (n : ℕ) (a : ℝ),
      (List.range n).foldl (varStep values mean) a
        = a + ∑ i ∈ Finset.range n, (values.getD i 0 - mean) ^ 2 := by
  intro n
  induction n with
  | zero => intro a; simp
  | succ n ih =>
      intro a
      rw [List.range_succ, List.foldl_append, Finset.sum_range_succ, ih]
      simp only [List.foldl_cons, List.foldl_nil, varStep]
      ring

/-- C3 (amended with the documented sample cap `n ≤ 20`): for every sample
count `1 ≤ n ≤ 20` and every stream of raw readings in `[0, 1023]`, the
sampler returns the voltage-mapped arithmetic mean of the raw readings and
the voltage-mapped population standard deviation (deviations divided by
`n`, not `n - 1`); for a constant stream the stddev is `0` and the mean is
the voltage-mapped constant. -/
theorem readAnalogToVoltage_spec :
    (∀ (readings : ℕ → ℕ) (n : ℕ), 1 ≤ n → n ≤ 20 → (∀ i, readings i ≤ 1023) →
      (readAnalogToVoltage readings n).mean
          = float_map ((∑ i ∈ Finset.range n, ((readings i : ℕ) : ℝ)) / n) 0 1023 0 5 ∧
      (readAnalogToVoltage readings n).stddev
          = float_map
              (Real.sqrt ((∑ i ∈ Finset.range n,
                  (((readings i : ℕ) : ℝ)
                    - (∑ j ∈ Finset.range n, ((readings j : ℕ) : ℝ)) / n) ^ 2) / n))
              0 1023 0 5) ∧
    (∀ (v n : ℕ), 1 ≤ n → n ≤ 20 → v ≤ 1023 →
      (readAnalogToVoltage (fun _ => v) n).stddev = 0 ∧
      (readAnalogToVoltage (fun _ => v) n).mean = float_map ((v : ℕ) : ℝ) 0 1023 0 5) := by
  have main : ∀ (readings : ℕ → ℕ) (n : ℕ), 1 ≤ n → n ≤ 20 →
      (readAnalogToVoltage readings n).mean
          = float_map ((∑ i ∈ Finset.range n, ((readings i : ℕ) : ℝ)) / n) 0 1023 0 5 ∧
      (readAnalogToVoltage readings n).stddev
          = float_map
              (Real.sqrt ((∑ i ∈ Finset.range n,
                  (((readings i : ℕ) : ℝ)
                    - (∑ j ∈ Finset.range n, ((readings j : ℕ) : ℝ)) / n) ^ 2) / n))
              0 1023 0 5 := by
    intro readings n h1 h2
    constructor
    · simp only [readAnalogToVoltage, sampFold_total]
    · have hsum :
          (∑ i ∈ Finset.range n,
              ((((List.range n).foldl (sampStep readings)
                    (List.replicate 20 0, 0)).1).getD i 0
                - (∑ j ∈ Finset.range n, ((readings j : ℕ) : ℝ)) / n) ^ 2)
            = ∑ i ∈ Finset.range n,
                (((readings i : ℕ) : ℝ)
                  - (∑ j ∈ Finset.range n, ((readings j : ℕ) : ℝ)) / n) ^ 2 :=
        Finset.sum_congr rfl fun i hi => by
          rw [sampFold_getD readings n h2 i (Finset.mem_range.mp hi)]
      simp only [readAnalogToVoltage, sampFold_total, varFold_sum, zero_add, hsum]
  refine ⟨fun readings n h1 h2 _ => main readings n h1 h2, fun v n h1 h2 _ => ?_⟩
  have h := main (fun _ => v) n h1 h2
  have hn : (n : ℝ) ≠ 0 := by positivity
  have hmean : (∑ _j ∈ Finset.range n, ((v : ℕ) : ℝ)) / n = ((v : ℕ) : ℝ) := by
    rw [Finset.sum_const, Finset.card_range, nsmul_eq_mul]
    field_simp
  constructor
  · rw [h.2]
    have : (∑ i ∈ Finset.range n,
        (((v : ℕ) : ℝ) - (∑ _j ∈ Finset.range n, ((v : ℕ) : ℝ)) / n) ^ 2) = 0 := by
      rw [hmean]
      simp
    rw [this]
    simp [float_map]
  · rw [h.1, hmean]

theorem sampFoldChecked_eq (readings : ℕ → ℕ) :
    ∀ (l : List ℕ) (p : List ℝ × ℝ), (∀ i ∈ l, i < p.1.length) →
      l.foldlM (sampStepChecked readings) p = some (l.foldl (sampStep readings) p) := by
  intro l
  induction l with
  | nil => intro p _; rfl
  | cons i l ih =>
      intro p hp
      have hi : i < p.1.length := hp i (List.mem_cons_self i l)
      simp only [List.foldlM_cons, sampStepChecked, bufSet, if_pos hi, Option.map_some',
        Option.some_bind, List.foldl_cons]
      refine ih _ fun j hj => ?_
      simp only [sampStep, List.length_set]
      exact hp j (List.mem_cons_of_mem i hj)

theorem varFoldChecked_eq (values : List ℝ) (mean : ℝ) :
    ∀ (l : List ℕ) (a : ℝ), (∀ i ∈ l, i < values.length) →
      l.foldlM (varStepChecked values mean) a = some (l.foldl (varStep values mean) a) := by
  intro l
  induction l with
  | nil => intro a _; rfl
  | cons i l ih =>
      intro a hp
      have hi : i < values.length := hp i (List.mem_cons_self i l)
      have hget : bufGet values i = some (values.getD i 0) := by
        simp only [bufGet, List.getElem?_eq_getElem hi, List.getD_eq_getElem?_getD,
          List.getElem?_eq_getElem hi, Option.getD_some]
      simp only [List.foldlM_cons, varStepChecked, hget, Option.map_some',
        Option.some_bind, List.foldl_cons, varStep]
      exact ih _ fun j hj => hp j (List.mem_cons_of_mem i hj)

theorem sampStepChecked_oob (readings : ℕ → ℕ) (p : List ℝ × ℝ) (i : ℕ)
    (h : ¬ i < p.1.length) : sampStepChecked readings p i = none := by
  simp [sampStepChecked, bufSet, h]

theorem checkedSampler_21_none (readings : ℕ → ℕ) :
    readAnalogToVoltageChecked readings 21 = none := by
  have hfold := sampFoldChecked_eq readings (List.range 20) (List.replicate 20 0, 0)
    (fun i hi => by
      simp only [List.length_replicate]
      exact List.mem_range.mp hi)
  have hlen :
      (((List.range 20).foldl (sampStep readings) (List.replicate 20 0, 0)).1).length
        = 20 := by rw [sampFold_length]; simp
  have hstep : sampStepChecked readings
      ((List.range 20).foldl (sampStep readings) (List.replicate 20 0, 0)) 20 = none :=
    sampStepChecked_oob readings _ 20 (by rw [hlen]; omega)
  have h21 : List.range 21 = List.range 20 ++ [20] := by
    rw [← List.range_succ]
  rw [readAnalogToVoltageChecked, h21, List.foldlM_append, hfold]
  simp only [Option.bind_eq_bind, Option.some_bind, List.foldlM_cons, hstep,
    Option.none_bind, List.foldlM_nil]

/-- C10: for every sample count `1 ≤ n ≤ 20` every access to the fixed
20-element buffer is in bounds, so the Option-indexed sampler never takes
its out-of-range branch and agrees with the plain sampler; nothing in the
code enforces the cap, and at `n = 21` the out-of-range branch is reached. -/
theorem readAnalogToVoltageChecked_spec :
    (∀ (readings : ℕ → ℕ) (n : ℕ), 1 ≤ n → n ≤ 20 →
        readAnalogToVoltageChecked readings n = some (readAnalogToVoltage readings n)) ∧
    readAnalogToVoltageChecked (fun _ => 0) 21 = none := by
  constructor
  · intro readings n _ h2
    have hfold := sampFoldChecked_eq readings (List.range n) (List.replicate 20 0, 0)
      (fun i hi => by
        simp only [List.length_replicate]
        exact lt_of_lt_of_le (List.mem_range.mp hi) h2)
    have hlen :
        (((List.range n).foldl (sampStep readings) (List.replicate 20 0, 0)).1).length
          = 20 := by rw [sampFold_length]; simp
    have hvar := varFoldChecked_eq
      ((List.range n).foldl (sampStep readings) (List.replicate 20 0, 0)).1
      (((List.range n).foldl (sampStep readings) (List.replicate 20 0, 0)).2 / n)
      (List.range n) 0
      (fun i hi => by
        rw [hlen]
        exact lt_of_lt_of_le (List.mem_range.mp hi) h2)
    rw [readAnalogToVoltageChecked, hfold]
    simp only [Option.bind_eq_bind, Option.some_bind, hvar, Option.pure_def,
      readAnalogToVoltage]
  · exact checkedSampler_21_none (fun _ => 0)

/-- Witness for C10 at `n = 10` (the default sample count) on the zero stream. -/
theorem readAnalogToVoltageChecked_spec_witness :
    readAnalogToVoltageChecked (fun _ => 0) 10
      = some (readAnalogToVoltage (fun _ => 0) 10) :=
  readAnalogToVoltageChecked_spec.1 (fun _ => 0) 10 (by norm_num) (by norm_num)

/-- Witness for C3 (amended) at `n = 10` on the constant stream `512`. -/
theorem readAnalogToVoltage_spec_witness :
    (readAnalogToVoltage (fun _ => 512) 10).stddev = 0 ∧
    (readAnalogToVoltage (fun _ => 512) 10).mean = float_map ((512 : ℕ) : ℝ) 0 1023 0 5 :=
  readAnalogToVoltage_spec.2 512 10 (by norm_num) (by norm_num) (by norm_num)

/-- Counterexample to C3 as stated (every `n ≥ 1`): at `n = 21` the sampler
reads past the fixed 20-element buffer, so it does not compute the claimed
statistics of the 21 readings; the Option-indexed embedding returns `none`
instead of the claimed constant-stream result. -/
theorem readAnalogToVoltage_spec_counterexample :
    readAnalogToVoltageChecked (fun _ => 1023) 21
      ≠ some (AnalogStats.mk (float_map ((1023 : ℕ) : ℝ) 0 1023 0 5)
          (float_map 0 0 1023 0 5)) := by
  rw [checkedSampler_21_none]
  simp

theorem dashLoop_pend : ∀ (n : ℕ) (s : SerialState),
    dashLoop n s = { s with pend := s.pend ++ List.replicate n (Tok.str "-") } := by
  intro n
  induction n with
  | zero => intro s; simp [dashLoop]
  | succ n ih =>
      intro s
      rw [dashLoop, List.range_succ, List.foldl_append, ← dashLoop, ih]
      simp [sPrint, List.replicate_succ']

theorem printDataCSVRowm_run (outputVoltage : ℝ) (a0 a1 a2 : AnalogStats)
    (a0_a1 a1_a2 : DiffStats) (current currentError : ℝ) (s : SerialState) :
    printDataCSVRowm outputVoltage a0 a1 a2 a0_a1 a1_a2 current currentError s
      = { s with
            lines := s.lines
              ++ [s.pend ++ rowTokens outputVoltage a0 a1 a2 a0_a1 a1_a2 current currentError]
            pend := [] } := by
  simp [printDataCSVRowm, printSerialCSVm, sPrint, sPrintln, sNewline, rowTokens]

theorem acquireAndPrintDatam_run (env : ℕ → ℕ) (step : ℕ) (s : SerialState) :
    acquireAndPrintDatam env step s
      = { lines := s.lines ++ [s.pend ++ stepRow env s.rdIdx step]
          pend := []
          dacWrites := s.dacWrites ++ [dacCodeOf step]
          rdIdx := s.rdIdx + 30
          hasRun := s.hasRun } := by
  rw [acquireAndPrintDatam]
  simp only [readChanm, setDACVoltageByStepm, printDataCSVRowm_run]
  ext : 1 <;> simp [stepRow]

theorem rampFold_run (env : ℕ → ℕ) :
    ∀ (l : List ℕ) (s : SerialState), s.pend = [] →
      l.foldl (fun st i => acquireAndPrintDatam env i st) s
        = { lines := s.lines ++ rowsFrom env s.rdIdx l
            pend := []
            dacWrites := s.dacWrites ++ l.map dacCodeOf
            rdIdx := s.rdIdx + 30 * l.length
            hasRun := s.hasRun } := by
  intro l
  induction l with
  | nil => intro s h; simp [rowsFrom, ← h]
  | cons i l ih =>
      intro s h
      rw [List.foldl_cons, acquireAndPrintDatam_run, ih _ rfl]
      ext : 1 <;> simp [rowsFrom, h] <;> omega

theorem printHeaderm_run (s : SerialState) (h : s.pend = []) :
    printHeaderm s
      = { s with lines := s.lines ++ [sepLine, devLine, infoLine, colsLine]
                 pend := [] } := by
  rw [printHeaderm, dashLoop_pend]
  simp [sNewline, sPrintln, sPrint, h, sepLine, devLine, infoLine, colsLine]

theorem setupm_run :
    setupm initState
      = { lines := [sepLine, devLine], pend := [], dacWrites := [], rdIdx := 0,
          hasRun := false } := by
  rw [setupm, dashLoop_pend]
  simp [sNewline, sPrintln, sPrint, initState, sepLine, devLine]

theorem loopm_run (env : ℕ → ℕ) (s : SerialState) (hr : s.hasRun = false)
    (hp : s.pend = []) :
    loopm env s
      = { lines := s.lines ++ [sepLine, devLine, infoLine, colsLine]
            ++ rowsFrom env s.rdIdx (List.range 51) ++ [finLine]
          pend := []
          dacWrites := s.dacWrites ++ (List.range 51).map dacCodeOf
          rdIdx := s.rdIdx + 30 * 51
          hasRun := true } := by
  rw [loopm, if_neg (by simp [hr])]
  simp only [printHeaderm_run s hp, rampFold_run env]
  ext : 1 <;> simp [sPrintln, sPrint, sNewline, finLine, List.append_assoc]

theorem fullRun_run (env : ℕ → ℕ) :
    fullRun env
      = { lines := [sepLine, devLine, sepLine, devLine, infoLine, colsLine]
            ++ rowsFrom env 0 (List.range 51) ++ [finLine]
          pend := []
          dacWrites := (List.range 51).map dacCodeOf
          rdIdx := 30 * 51
          hasRun := true } := by
  rw [fullRun, setupm_run, loopm_run env _ rfl rfl]
  ext : 1 <;> simp

theorem rowsFrom_length (env : ℕ → ℕ) :
    ∀ (r : ℕ) (l : List ℕ), (rowsFrom env r l).length = l.length := by
  intro r l
  induction l generalizing r with
  | nil => rfl
  | cons i l ih => simp [rowsFrom, ih]

theorem isSepLine_stepRow (env : ℕ → ℕ) (r i : ℕ) :
    isSepLine (stepRow env r i) = false := rfl

theorem rowsFrom_countP_sep (env : ℕ → ℕ) :
    ∀ (r : ℕ) (l : List ℕ), (rowsFrom env r l).countP isSepLine = 0 := by
  intro r l
  induction l generalizing r with
  | nil => rfl
  | cons i l ih =>
      rw [rowsFrom, List.countP_cons_of_neg _ _ (by simp [isSepLine_stepRow]), ih]

/-- C5: the Ramp Controller runs the full ramp exactly once — any
invocation of `loop` with the latch set is the identity on the observable
state (no peripheral writes, no output), and a full run ends with the
latch set and the completion marker as the last emitted line. -/
theorem loopm_once_spec :
    (∀ (env : ℕ → ℕ) (s : SerialState), s.hasRun = true → loopm env s = s) ∧
    (∀ env : ℕ → ℕ, (fullRun env).hasRun = true ∧
        (fullRun env).lines.getLast? = some finLine) := by
  refine ⟨fun env s h => by rw [loopm, if_pos h], fun env => ⟨by rw [fullRun_run], ?_⟩⟩
  rw [fullRun_run]
  show ([sepLine, devLine, sepLine, devLine, infoLine, colsLine]
      ++ (rowsFrom env 0 (List.range 51) ++ [finLine])).getLast? = some finLine
  rw [← List.append_assoc]
  exact List.getLast?_concat _

/-- Witness for C5: a state that has already run is left unchanged. -/
theorem loopm_once_spec_witness :
    loopm (fun _ => 0)
        { lines := [], pend := [], dacWrites := [], rdIdx := 0, hasRun := true }
      = { lines := [], pend := [], dacWrites := [], rdIdx := 0, hasRun := true } :=
  loopm_once_spec.1 (fun _ => 0) _ rfl

/-- C6 (amended): the full-run output stream is the separator line and
device line from `setup`, the separator line, device line and
announcement line again from `printHeader`, the column-header line,
exactly 51 data rows, and the completion line; the separator line has 35
characters and the data-row count is 51 for every reading stream. -/
theorem fullRun_stream_spec (env : ℕ → ℕ) :
    (fullRun env).lines
      = [sepLine, devLine, sepLine, devLine, infoLine, colsLine]
          ++ rowsFrom env 0 (List.range 51) ++ [finLine] ∧
    (rowsFrom env 0 (List.range 51)).length = 51 ∧
    sepLine.length = 35 := by
  refine ⟨by rw [fullRun_run], by rw [rowsFrom_length]; rfl, rfl⟩

/-- Counterexample to C6 as stated: the claimed stream has exactly one
separator line, but a concrete full run emits two (one from `setup`, one
from `printHeader`). -/
theorem fullRun_stream_counterexample :
    ((fullRun (fun _ => 0)).lines.countP isSepLine) = 2 := by
  rw [fullRun_run]
  rw [List.countP_append, List.countP_append, rowsFrom_countP_sep]
  decide

/-- C4: with a measured difference of exactly 0, the division inside the
current-error formula is a division by zero, so `currentError` is
non-finite (`none` in the non-finite-tracking semantics); it is not
replaced by a finite 0, and the emitted row is still complete (13
comma-separated fields) whatever values its fields carry. -/
theorem currentError_zero_diff_spec :
    (∀ e : ℝ, currentErrorChecked 0 e = none) ∧
    (∀ e : ℝ, currentErrorChecked 0 e ≠ some 0) ∧
    (∀ (outputVoltage : ℝ) (a0 a1 a2 : AnalogStats) (a0_a1 a1_a2 : DiffStats)
        (current currentError : ℝ),
        (splitFields (rowTokens outputVoltage a0 a1 a2 a0_a1 a1_a2
            current currentError)).length = 13) := by
  have h : ∀ e : ℝ, currentErrorChecked 0 e = none := by
    intro e
    simp [currentErrorChecked, fdiv, fpow2, fadd, fsqrt, fmul]
  exact ⟨h, fun e => by rw [h e]; simp, fun _ _ _ _ _ _ _ _ => rfl⟩

/-- In the non-degenerate case the non-finite-tracking evaluation agrees
with the real-valued `currentErrorOf`, so the two embeddings of the same
source expression coincide off the division-by-zero edge case. -/
theorem currentErrorChecked_of_ne (d e : ℝ) (hd : d ≠ 0) :
    currentErrorChecked d e = some (currentErrorOf d e) := by
  have hR : RESISTOR ≠ 0 := by norm_num [RESISTOR]
  simp only [currentErrorChecked, fdiv, if_neg hd, if_neg hR, fpow2, fadd, fsqrt, fmul]
  rw [if_pos (by positivity)]
  rfl

theorem dacCodeOf_eq (i : ℕ) : dacCodeOf i = ⌊((i : ℚ) * 4095) / 51⌋ := by
  have hx : float_map (i : ℚ) 0 51 0 4095 = ((i : ℚ) * 4095) / 51 := by
    unfold float_map
    ring
  rw [dacCodeOf, hx, cppTrunc, if_pos (by positivity)]

/-- C7 (amended): step `i` maps to output voltage `i / 10` (the first
token of its data row) and to the DAC code `⌊i * 4095 / 51⌋` — the
truncated linear map of `[0, 51]` onto `[0, 4095]`; over the 51 commanded
steps (`i < 51`) the codes stay within `[0, 4014]` (code 0 at step 0, code
4014 at step 50) and never reach 4095. -/
theorem dacStep_spec :
    (∀ i : ℕ, dacCodeOf i = ⌊((i : ℚ) * 4095) / 51⌋) ∧
    (∀ (env : ℕ → ℕ) (r i : ℕ),
        (stepRow env r i).head? = some (Tok.numDefault ((i : ℝ) / 10))) ∧
    dacCodeOf 0 = 0 ∧ dacCodeOf 50 = 4014 ∧
    (∀ i : ℕ, i < 51 → 0 ≤ dacCodeOf i ∧ dacCodeOf i < 4095) := by
  have h50 : dacCodeOf 50 = 4014 := by
    rw [dacCodeOf_eq]
    norm_num
  refine ⟨dacCodeOf_eq, fun env r i => rfl, by rw [dacCodeOf_eq]; norm_num, h50,
    fun i hi => ⟨?_, ?_⟩⟩
  · rw [dacCodeOf_eq]
    exact Int.floor_nonneg.mpr (by positivity)
  · have hle : dacCodeOf i ≤ dacCodeOf 50 := by
      rw [dacCodeOf_eq, dacCodeOf_eq]
      have hi' : (i : ℚ) ≤ 50 := by exact_mod_cast Nat.lt_succ_iff.mp hi
      exact Int.floor_le_floor (by gcongr; omega)
    omega

/-- Witness for C7 (amended) at the final step 50. -/
theorem dacStep_spec_witness : 0 ≤ dacCodeOf 50 ∧ dacCodeOf 50 < 4095 :=
  dacStep_spec.2.2.2.2 50 (by norm_num)

/-- Counterexample to C7 as stated: the linear map of the index range
`[0, 51)` onto the full code range `[0, 4095]` would command code 4095 at
the largest step 50, but step 50 commands 4014. -/
theorem dacStep_counterexample :
    dacCodeOf 50 = 4014 ∧ dacCodeOf 50 ≠ 4095 := by
  rw [dacCodeOf_eq]
  norm_num

/-- C9 (amended): each data row is 13 comma-separated fields in the stated
column order terminated by a line break, the 12 statistic/current fields
are printed through the explicit precision-4 path, and the first field
(output voltage) is printed through the default `String(float)`
conversion (2 decimal places), not the precision-4 path. -/
theorem printDataCSVRow_fields_spec :
    ∀ (outputVoltage : ℝ) (a0 a1 a2 : AnalogStats) (a0_a1 a1_a2 : DiffStats)
      (current currentError : ℝ) (s : SerialState), s.pend = [] →
      (printDataCSVRowm outputVoltage a0 a1 a2 a0_a1 a1_a2 current currentError s
        = { s with
              lines := s.lines
                ++ [rowTokens outputVoltage a0 a1 a2 a0_a1 a1_a2 current currentError]
              pend := [] }) ∧
      splitFields (rowTokens outputVoltage a0 a1 a2 a0_a1 a1_a2 current currentError)
        = [[Tok.numDefault outputVoltage],
           [Tok.num a0.mean 4], [Tok.num a0.stddev 4],
           [Tok.num a1.mean 4], [Tok.num a1.stddev 4],
           [Tok.num a2.mean 4], [Tok.num a2.stddev 4],
           [Tok.num a0_a1.diff 4], [Tok.num a0_a1.error 4],
           [Tok.num a1_a2.diff 4], [Tok.num a1_a2.error 4],
           [Tok.num current 4], [Tok.num currentError 4]] ∧
      (splitFields (rowTokens outputVoltage a0 a1 a2 a0_a1 a1_a2
          current currentError)).length = 13 := by
  intro outputVoltage a0 a1 a2 a0_a1 a1_a2 current currentError s h
  refine ⟨?_, rfl, rfl⟩
  rw [printDataCSVRowm_run, h]
  simp

/-- Witness for C9 (amended) at an all-zero row appended to the power-up state. -/
theorem printDataCSVRow_fields_spec_witness :
    (splitFields (rowTokens 0 ⟨0, 0⟩ ⟨0, 0⟩ ⟨0, 0⟩ ⟨0, 0⟩ ⟨0, 0⟩ 0 0)).length = 13 :=
  (printDataCSVRow_fields_spec 0 ⟨0, 0⟩ ⟨0, 0⟩ ⟨0, 0⟩ ⟨0, 0⟩ ⟨0, 0⟩ 0 0 initState rfl).2.2

/-- Counterexample to C9 as stated: not every numeric field of a data row
is formatted at precision 4 — the first field goes through the default
`String(float)` conversion. -/
theorem printDataCSVRow_prec4_counterexample :
    ((rowTokens 0 ⟨0, 0⟩ ⟨0, 0⟩ ⟨0, 0⟩ ⟨0, 0⟩ ⟨0, 0⟩ 0 0).all tokPrec4) = false := rfl

end DacExp
